import Mathlib

/-!
Shallow embedding of the Entity Store Service from `app/main.py` and
`app/models.py`: three tables (users, projects, courses) with the
uniqueness and foreign-key constraints declared in `models.py`, and the
request handlers of `main.py` as pure functions from a payload and a
store to a response together with the store after the request.

A commit is modelled as the relational engine checking the declared
constraints on the tentative store: if they hold the tentative store is
installed, otherwise an `IntegrityError` is raised and the handler's
`except IntegrityError` branch (rollback, HTTP 409) runs with the store
unchanged.  `app/schemas.py` is not part of the sources; the payload
record types are modelled from the spec, as noted on each one.
-/

namespace EntityStore

/-- Row of the `users` table (`UserDB` in `app/models.py`): surrogate id,
name, unique email, age, unique student_id. -/
structure User where
  id : Nat
  name : String
  email : String
  age : Int
  student_id : String
deriving Repr, DecidableEq

/-- Row of the `projects` table (`ProjectDB` in `app/models.py`):
surrogate project_id, name, nullable description, owner_id referencing
`users.id` with cascade on delete. -/
structure Project where
  project_id : Nat
  name : String
  description : Option String
  owner_id : Nat
deriving Repr, DecidableEq

/-- Row of the `courses` table (`CourseDB` in `app/models.py`):
surrogate id, unique code, name, credits. -/
structure Course where
  id : Nat
  code : String
  name : String
  credits : Int
deriving Repr, DecidableEq

/-- The relational store: the three tables, rows in insertion order. -/
structure Store where
  users : List User
  projects : List Project
  courses : List Course
deriving Repr, DecidableEq

/-- `distinctKeys f l` is true when no two rows of `l` share the key
`f`; it models a declared `unique=True` column (or a primary key). -/
def distinctKeys {α β : Type} [DecidableEq β] (f : α → β) : List α → Bool
  | [] => true
  | x :: xs => !(xs.any fun y => f y == f x) && distinctKeys f xs

/-- All constraints declared in `app/models.py`: primary keys, the
unique columns `users.email`, `users.student_id`, `courses.code`, and
the foreign key `projects.owner_id -> users.id`.  A commit succeeds
exactly when the tentative store satisfies them. -/
def integrityOk (s : Store) : Bool :=
  distinctKeys User.id s.users &&
  distinctKeys User.email s.users &&
  distinctKeys User.student_id s.users &&
  distinctKeys Project.project_id s.projects &&
  s.projects.all (fun p => s.users.any fun u => u.id == p.owner_id) &&
  distinctKeys Course.id s.courses &&
  distinctKeys Course.code s.courses

/-- Autoincrement of a surrogate integer primary key: one more than the
largest id in use (1 on an empty table). -/
def nextId (ids : List Nat) : Nat := ids.foldr max 0 + 1

def nextUserId (s : Store) : Nat := nextId (s.users.map User.id)

def nextProjectId (s : Store) : Nat := nextId (s.projects.map Project.project_id)

def nextCourseId (s : Store) : Nat := nextId (s.courses.map Course.id)

/-- An HTTP response: either a success with a status code and a body, or
an error with a status code and the JSON `detail` message. -/
inductive Resp (α : Type) where
  | ok (status : Nat) (body : α)
  | error (status : Nat) (detail : String)
deriving Repr, DecidableEq

/-- Modelled from the spec: `UserCreate` of the missing `app/schemas.py`
("name, email, age, student_id all required"). -/
structure UserCreate where
  name : String
  email : String
  age : Int
  student_id : String
deriving Repr, DecidableEq

/-- Modelled from the spec: `UserUpdate` of the missing
`app/schemas.py`, the PATCH payload in which every field is optional.
`none` stands for a field that is omitted or null — the source conflates
the two via `model_dump(exclude_unset=True, exclude_none=True)`. -/
structure UserUpdate where
  name : Option String
  email : Option String
  age : Option Int
  student_id : Option String
deriving Repr, DecidableEq

/-- Modelled from the spec: `ProjectCreate` of the missing
`app/schemas.py` ("owner_id must reference existing User"; description
is the nullable column). -/
structure ProjectCreate where
  name : String
  description : Option String
  owner_id : Nat
deriving Repr, DecidableEq

/-- Modelled from the spec: `ProjectUpdate` of the missing
`app/schemas.py`, the PATCH payload in which every field is optional;
`none` is omitted-or-null as for `UserUpdate`. -/
structure ProjectUpdate where
  name : Option String
  description : Option String
  owner_id : Option Nat
deriving Repr, DecidableEq

/-- Modelled from the spec: `ProjectCreateForUser` of the missing
`app/schemas.py`.  The handler reads only `name` and `description`; an
`owner_id` field is carried here so that theorems can quantify over a
payload that tries to name a different owner — the handler never reads
it. -/
structure ProjectCreateForUser where
  name : String
  description : Option String
  owner_id : Option Nat
deriving Repr, DecidableEq

/-- Modelled from the spec: `CourseCreate` of the missing
`app/schemas.py` ("code, name, credits required"). -/
structure CourseCreate where
  code : String
  name : String
  credits : Int
deriving Repr, DecidableEq

/-- A commit attempt can, besides succeeding or hitting a constraint
violation, fail for an unrelated reason (connection loss and the like);
`other msg` is such a failure with exception text `msg`.  Only
`create_project` has an `except Exception` branch, so only it takes the
fault as an argument. -/
inductive CommitFault where
  | ok
  | other (msg : String)
deriving Repr, DecidableEq

/-- Handler `add_user` (`POST /api/users`): build the row from the
payload, add, commit; an `IntegrityError` is rolled back and mapped to
409 "User already exists". -/
def add_user (payload : UserCreate) (s : Store) : Resp User × Store :=
  let user : User :=
    { id := nextUserId s, name := payload.name, email := payload.email,
      age := payload.age, student_id := payload.student_id }
  let s' : Store := { s with users := s.users ++ [user] }
  if integrityOk s' then (.ok 201 user, s')
  else (.error 409 "User already exists", s)

/-- Handler `get_user` (`GET /api/users/{user_id}`). -/
def get_user (user_id : Nat) (s : Store) : Resp User × Store :=
  match s.users.find? (fun u => u.id == user_id) with
  | none => (.error 404 "User not found", s)
  | some u => (.ok 200 u, s)

/-- Handler `update_user` for PUT (`PUT /api/users/{student_id}`):
look the user up by student_id, overwrite name, email, age and
student_id from the payload, commit; `IntegrityError` maps to 409. -/
def update_user_put (student_id : String) (updated_user : UserCreate)
    (s : Store) : Resp User × Store :=
  match s.users.find? (fun u => u.student_id == student_id) with
  | none => (.error 404 "User not found", s)
  | some u =>
    let u' : User :=
      { id := u.id, name := updated_user.name, email := updated_user.email,
        age := updated_user.age, student_id := updated_user.student_id }
    let s' : Store :=
      { s with users := s.users.map fun v => if v.id == u.id then u' else v }
    if integrityOk s' then (.ok 200 u', s')
    else (.error 409 "User already exists", s)

/-- The `setattr` loop of the PATCH handlers applied to a user:
`model_dump(exclude_unset=True, exclude_none=True)` keeps exactly the
fields that are present and non-null, and each of those is assigned. -/
def applyUserUpdates (upd : UserUpdate) (u : User) : User :=
  { u with
    name := upd.name.getD u.name,
    email := upd.email.getD u.email,
    age := upd.age.getD u.age,
    student_id := upd.student_id.getD u.student_id }

/-- Handler `update_user` for PATCH (`PATCH /api/users/{student_id}`):
look the user up by student_id, assign only the supplied non-null
fields, commit; `IntegrityError` maps to 409. -/
def update_user_patch (student_id : String) (updated_user : UserUpdate)
    (s : Store) : Resp User × Store :=
  match s.users.find? (fun u => u.student_id == student_id) with
  | none => (.error 404 "User not found", s)
  | some u =>
    let u' := applyUserUpdates updated_user u
    let s' : Store :=
      { s with users := s.users.map fun v => if v.id == u.id then u' else v }
    if integrityOk s' then (.ok 200 u', s')
    else (.error 409 "User already exists", s)

/-- Handler `delete_user` (`DELETE /api/users/{user_id}`): 404 when the
id is absent; otherwise `db.delete(user)` with the ORM cascade removes
the user and every project whose owner_id is that id, and the commit is
NOT wrapped in a try/except — a failing commit would propagate to the
framework as an unhandled exception (500, store unchanged because the
commit did not go through). -/
def delete_user (user_id : Nat) (s : Store) : Resp Unit × Store :=
  match s.users.find? (fun u => u.id == user_id) with
  | none => (.error 404 "User not found", s)
  | some _ =>
    let s' : Store :=
      { s with
        users := s.users.filter fun u => !(u.id == user_id),
        projects := s.projects.filter fun p => !(p.owner_id == user_id) }
    if integrityOk s' then (.ok 204 (), s')
    else (.error 500 "Internal Server Error", s)

/-- Handler `create_project` (`POST /api/projects`): the owner-existence
check runs before anything is added; then add and commit, mapping
`IntegrityError` to a rollback and 409, and any other exception `e` to a
rollback and 500 with detail `f"Unexpected: {e!s}"`. -/
def create_project (project : ProjectCreate) (fault : CommitFault)
    (s : Store) : Resp Project × Store :=
  if s.users.any (fun u => u.id == project.owner_id) then
    let proj : Project :=
      { project_id := nextProjectId s, name := project.name,
        description := project.description, owner_id := project.owner_id }
    let s' : Store := { s with projects := s.projects ++ [proj] }
    match fault with
    | .other msg => (.error 500 ("Unexpected: " ++ msg), s)
    | .ok =>
      if integrityOk s' then (.ok 201 proj, s')
      else (.error 409 "Project creation failed", s)
  else (.error 404 "User not found", s)

/-- Handler `update_project` (`PUT /api/projects/{project_id}`):
overwrite name, description and owner_id from the payload; 404 when the
project_id is absent; `IntegrityError` maps to 409. -/
def update_project (project_id : Nat) (updated : ProjectCreate)
    (s : Store) : Resp Project × Store :=
  match s.projects.find? (fun p => p.project_id == project_id) with
  | none => (.error 404 "Project not found", s)
  | some p =>
    let p' : Project :=
      { project_id := p.project_id, name := updated.name,
        description := updated.description, owner_id := updated.owner_id }
    let s' : Store :=
      { s with projects :=
          s.projects.map fun q => if q.project_id == p.project_id then p' else q }
    if integrityOk s' then (.ok 200 p', s')
    else (.error 409 "Project already exists or owner invalid", s)

/-- The `setattr` loop of `patch_project`: exactly the present-and-non-
null payload fields are assigned.  A null description is dropped by
`exclude_none=True`, so a PATCH can never clear `description` to null. -/
def applyProjectUpdates (upd : ProjectUpdate) (p : Project) : Project :=
  { p with
    name := upd.name.getD p.name,
    description := match upd.description with
      | some d => some d
      | none => p.description,
    owner_id := upd.owner_id.getD p.owner_id }

/-- Handler `patch_project` (`PATCH /api/projects/{project_id}`): assign
only the supplied non-null fields, commit; `IntegrityError` maps to 409. -/
def patch_project (project_id : Nat) (updated : ProjectUpdate)
    (s : Store) : Resp Project × Store :=
  match s.projects.find? (fun p => p.project_id == project_id) with
  | none => (.error 404 "Project not found", s)
  | some p =>
    let p' := applyProjectUpdates updated p
    let s' : Store :=
      { s with projects :=
          s.projects.map fun q => if q.project_id == p.project_id then p' else q }
    if integrityOk s' then (.ok 200 p', s')
    else (.error 409 "Project already exists or owner invalid", s)

/-- Handler `get_user_projects` (`GET /api/users/{user_id}/projects`):
a pure filter on owner_id, with no existence check on the user. -/
def get_user_projects (user_id : Nat) (s : Store) : Resp (List Project) × Store :=
  (.ok 200 (s.projects.filter fun p => p.owner_id == user_id), s)

/-- Handler `create_user_project` (`POST /api/users/{user_id}/projects`):
404 when the path user_id is absent; otherwise the new row's owner_id is
the path user_id (the payload is consulted only for name and
description), and the commit goes through `commit_or_rollback` with 409
message "Project creation failed". -/
def create_user_project (user_id : Nat) (project : ProjectCreateForUser)
    (s : Store) : Resp Project × Store :=
  if s.users.any (fun u => u.id == user_id) then
    let proj : Project :=
      { project_id := nextProjectId s, name := project.name,
        description := project.description, owner_id := user_id }
    let s' : Store := { s with projects := s.projects ++ [proj] }
    if integrityOk s' then (.ok 201 proj, s')
    else (.error 409 "Project creation failed", s)
  else (.error 404 "User not found", s)

/-- Handler `create_course` (`POST /api/courses`): add and commit via
`commit_or_rollback` with 409 message "Course already exists". -/
def create_course (course : CourseCreate) (s : Store) : Resp Course × Store :=
  let c : Course :=
    { id := nextCourseId s, code := course.code, name := course.name,
      credits := course.credits }
  let s' : Store := { s with courses := s.courses ++ [c] }
  if integrityOk s' then (.ok 201 c, s')
  else (.error 409 "Course already exists", s)

/-- Insertion of a course into a list kept ascending by id; building
block of the `ORDER BY courses.id` of `list_courses`. -/
def insertById (c : Course) : List Course → List Course
  | [] => [c]
  | d :: ds => if c.id ≤ d.id then c :: d :: ds else d :: insertById c ds

/-- The `ORDER BY courses.id` of `list_courses`: the rows sorted by
ascending id. -/
def sortById : List Course → List Course
  | [] => []
  | c :: cs => insertById c (sortById cs)

/-- Handler `list_courses` (`GET /api/courses?limit=&offset=`), defaults
limit 10 and offset 0: `SELECT ... ORDER BY id LIMIT limit OFFSET
offset` (SQL applies the offset before the limit, whatever the order of
the two method calls). -/
def list_courses (s : Store) (limit : Nat := 10) (offset : Nat := 0) :
    Resp (List Course) × Store :=
  (.ok 200 (((sortById s.courses).drop offset).take limit), s)

/-- A concrete user, as in the spec's scenario (§8). -/
def user1 : User := ⟨1, "A", "a@x.com", 20, "S1"⟩

/-- The empty store (fresh database). -/
def store0 : Store := ⟨[], [], []⟩

/-- A store holding just `user1`. -/
def storeU : Store := ⟨[user1], [], []⟩

/-- A project owned by `user1`. -/
def proj1 : Project := ⟨1, "P", none, 1⟩

/-- A store holding `user1` and one project it owns. -/
def storeUP : Store := ⟨[user1], [proj1], []⟩

/-- The creation payload matching `user1` (spec §8 scenario). -/
def payloadA : UserCreate := ⟨"A", "a@x.com", 20, "S1"⟩

/-- The store after creating `payloadA` in the empty store. -/
def storeA : Store := ⟨[user1], [], []⟩

/-- The i-th seeded course of the spec's pagination example. -/
def seedCourse (i : Nat) : Course := ⟨i, "C" ++ toString i, "Course", 3⟩

/-- Fifteen courses seeded in id order (spec §8 pagination example). -/
def seed15 : Store := ⟨[], [], (List.range 15).map fun i => seedCourse (i + 1)⟩

/-! Helper lemmas about the constraint checker and the store. -/

theorem distinctKeys_eq_nodup {α β : Type} [DecidableEq β] (f : α → β) (l : List α) :
    distinctKeys f l = true ↔ (l.map f).Nodup := by
  induction l with
  | nil => simp [distinctKeys]
  | cons x xs ih =>
    simp only [distinctKeys, Bool.and_eq_true, Bool.not_eq_true', List.any_eq_false,
      beq_iff_eq, List.map_cons, List.nodup_cons, ih, List.mem_map, not_exists, not_and]

theorem integrityOk_iff (s : Store) :
    integrityOk s = true ↔
      (s.users.map User.id).Nodup ∧
      (s.users.map User.email).Nodup ∧
      (s.users.map User.student_id).Nodup ∧
      (s.projects.map Project.project_id).Nodup ∧
      (∀ p ∈ s.projects, ∃ u ∈ s.users, u.id = p.owner_id) ∧
      (s.courses.map Course.id).Nodup ∧
      (s.courses.map Course.code).Nodup := by
  simp [integrityOk, Bool.and_eq_true, distinctKeys_eq_nodup, List.all_eq_true,
    List.any_eq_true, beq_iff_eq, and_assoc]

theorem le_foldr_max (x : Nat) (l : List Nat) (hx : x ∈ l) : x ≤ l.foldr max 0 := by
  induction l with
  | nil => cases hx
  | cons a t ih =>
    rcases List.mem_cons.mp hx with rfl | h
    · exact Nat.le_max_left _ _
    · exact le_trans (ih h) (Nat.le_max_right _ _)

theorem lt_nextId {x : Nat} {l : List Nat} (hx : x ∈ l) : x < nextId l :=
  Nat.lt_succ_of_le (le_foldr_max x l hx)

theorem nodup_map_append_fresh {α β : Type} [DecidableEq β] (f : α → β) (l : List α) (x : α)
    (hl : (l.map f).Nodup) (hx : ∀ y ∈ l, f y ≠ f x) : ((l ++ [x]).map f).Nodup := by
  rw [List.map_append, List.nodup_append]
  refine ⟨hl, by simp, ?_⟩
  intro b hb hb'
  rcases List.mem_map.mp hb with ⟨y, hy, rfl⟩
  rcases List.mem_map.mp hb' with ⟨z, hz, hfz⟩
  rcases List.mem_singleton.mp hz with rfl
  exact hx y hy hfz.symm

theorem not_nodup_map_append_dup {α β : Type} [DecidableEq β] (f : α → β) (l : List α)
    (x y : α) (hy : y ∈ l) (h : f y = f x) : ¬ ((l ++ [x]).map f).Nodup := by
  rw [List.map_append, List.nodup_append]
  rintro ⟨-, -, hdis⟩
  exact hdis (List.mem_map_of_mem f hy) (by simp [h])

theorem nodup_map_filter {α β : Type} [DecidableEq β] (f : α → β) (p : α → Bool)
    (l : List α) (h : (l.map f).Nodup) : ((l.filter p).map f).Nodup :=
  List.Nodup.sublist (List.Sublist.map f (List.filter_sublist l)) h

theorem map_replace_self {l : List User} (hnd : (l.map User.id).Nodup) {u : User}
    (hu : u ∈ l) : (l.map fun v => if v.id == u.id then u else v) = l := by
  have hpt : ∀ v ∈ l, (if v.id == u.id then u else v) = v := by
    intro v hv
    by_cases h : v.id == u.id
    · have hvu : v = u := List.inj_on_of_nodup_map hnd hv hu (beq_iff_eq.mp h)
      simp [h, hvu]
    · simp [h]
  calc (l.map fun v => if v.id == u.id then u else v) = l.map id :=
        List.map_congr_left hpt
    _ = l := List.map_id l

theorem map_replace_self_project {l : List Project} (hnd : (l.map Project.project_id).Nodup)
    {p : Project} (hp : p ∈ l) :
    (l.map fun q => if q.project_id == p.project_id then p else q) = l := by
  have hpt : ∀ q ∈ l, (if q.project_id == p.project_id then p else q) = q := by
    intro q hq
    by_cases h : q.project_id == p.project_id
    · have hqp : q = p := List.inj_on_of_nodup_map hnd hq hp (beq_iff_eq.mp h)
      simp [h, hqp]
    · simp [h]
  calc (l.map fun q => if q.project_id == p.project_id then p else q) = l.map id :=
        List.map_congr_left hpt
    _ = l := List.map_id l

theorem integrityOk_delete (s : Store) (uid : Nat) (hwf : integrityOk s = true) :
    integrityOk
      { s with users := s.users.filter fun u => !(u.id == uid),
               projects := s.projects.filter fun p => !(p.owner_id == uid) } = true := by
  rcases (integrityOk_iff s).mp hwf with ⟨h1, h2, h3, h4, h5, h6, h7⟩
  refine (integrityOk_iff _).mpr
    ⟨nodup_map_filter _ _ _ h1, nodup_map_filter _ _ _ h2, nodup_map_filter _ _ _ h3,
     nodup_map_filter _ _ _ h4, ?_, h6, h7⟩
  intro p hp
  rcases List.mem_filter.mp hp with ⟨hpmem, hpkeep⟩
  rcases h5 p hpmem with ⟨u, hu, hid⟩
  have howner : (p.owner_id == uid) = false := by
    simpa using hpkeep
  refine ⟨u, List.mem_filter.mpr ⟨hu, ?_⟩, hid⟩
  simp only [hid, howner, Bool.not_false]

theorem insertById_perm (c : Course) (l : List Course) :
    (insertById c l).Perm (c :: l) := by
  induction l with
  | nil => exact List.Perm.refl _
  | cons d ds ih =>
    by_cases h : c.id ≤ d.id
    · simp only [insertById, if_pos h]
      exact List.Perm.refl _
    · simp only [insertById, if_neg h]
      exact (ih.cons d).trans (List.Perm.swap c d ds)

theorem sortById_perm (l : List Course) : (sortById l).Perm l := by
  induction l with
  | nil => exact List.Perm.refl _
  | cons c cs ih => exact (insertById_perm c (sortById cs)).trans (ih.cons c)

theorem pairwise_insertById (c : Course) (l : List Course)
    (h : l.Pairwise fun a b => a.id ≤ b.id) :
    (insertById c l).Pairwise fun a b => a.id ≤ b.id := by
  induction l with
  | nil => simp [insertById]
  | cons d ds ih =>
    rcases List.pairwise_cons.mp h with ⟨hd, hds⟩
    by_cases hc : c.id ≤ d.id
    · simp only [insertById, if_pos hc]
      refine List.pairwise_cons.mpr ⟨?_, h⟩
      intro b hb
      rcases List.mem_cons.mp hb with rfl | hb'
      · exact hc
      · exact le_trans hc (hd b hb')
    · simp only [insertById, if_neg hc]
      refine List.pairwise_cons.mpr ⟨?_, ih hds⟩
      intro b hb
      rcases List.mem_cons.mp ((insertById_perm c ds).mem_iff.mp hb) with rfl | hb'
      · exact le_of_not_le hc
      · exact hd b hb'

theorem sortById_pairwise (l : List Course) :
    (sortById l).Pairwise fun a b => a.id ≤ b.id := by
  induction l with
  | nil => simp [sortById]
  | cons c cs ih => exact pairwise_insertById c _ ih

/-! Claim theorems. -/

/-- C8: for every user_id (stored or not), List Projects for User returns
200 with exactly the stored projects whose owner_id equals user_id —
possibly empty — with no existence check on the user and no mutation of
the store. -/
theorem C8_list_user_projects_pure_filter :
    ∀ (user_id : Nat) (s : Store), ∃ rows : List Project,
      get_user_projects user_id s = (.ok 200 rows, s) ∧
      (∀ p, p ∈ rows ↔ p ∈ s.projects ∧ p.owner_id = user_id) ∧
      (get_user_projects user_id s).2 = s := by
  intro user_id s
  refine ⟨s.projects.filter fun p => p.owner_id == user_id, rfl, ?_, rfl⟩
  intro p
  simp [List.mem_filter]

/-- C5: Create Project with an owner_id referencing no stored user
returns 404 "User not found" and leaves the store unchanged (the
owner-existence check precedes any mutation), whatever the commit
environment would have done. -/
theorem C5_create_project_missing_owner_404 :
    ∀ (pay : ProjectCreate) (fault : CommitFault) (s : Store),
      (∀ u ∈ s.users, u.id ≠ pay.owner_id) →
      create_project pay fault s = (.error 404 "User not found", s) := by
  intro pay fault s h
  have hany : (s.users.any fun u => u.id == pay.owner_id) = false := by
    simp only [List.any_eq_false, Bool.not_eq_true, beq_eq_false_iff_ne, ne_eq]
    exact h
  simp only [create_project, hany, Bool.false_eq_true, if_false]

/-- Witness for C5 at the empty store. -/
theorem C5_witness :
    create_project ⟨"P", none, 5⟩ CommitFault.ok store0 =
      (.error 404 "User not found", store0) :=
  C5_create_project_missing_owner_404 ⟨"P", none, 5⟩ CommitFault.ok store0
    (by intro u hu; cases hu)

/-- C6: List Courses returns the stored courses ordered by ascending id,
restricted to the page `offset, limit` (the sorted sequence's positions
offset+1 through offset+limit, so its length is min limit (N - offset)),
with defaults limit 10 and offset 0; concretely, with 15 courses seeded
in id order, limit 5 and offset 10 yield courses 11 through 15. -/
theorem C6_list_courses_pagination :
    (∀ (s : Store) (limit offset : Nat),
      (list_courses s limit offset).2 = s ∧
      (list_courses s limit offset).1 =
        .ok 200 (((sortById s.courses).drop offset).take limit) ∧
      (sortById s.courses).Perm s.courses ∧
      ((sortById s.courses).Pairwise fun a b => a.id ≤ b.id) ∧
      (((sortById s.courses).drop offset).take limit).length =
        min limit (s.courses.length - offset) ∧
      list_courses s = list_courses s 10 0) ∧
    (list_courses seed15 5 10).1 =
      .ok 200 [seedCourse 11, seedCourse 12, seedCourse 13, seedCourse 14, seedCourse 15] := by
  constructor
  · intro s limit offset
    refine ⟨rfl, rfl, sortById_perm _, sortById_pairwise _, ?_, rfl⟩
    rw [List.length_take, List.length_drop, (sortById_perm s.courses).length_eq]
  · rfl

/-- C1: for every stored User or Project, a PATCH applies exactly the
payload fields that are present and non-null (an absent-or-null field
keeps its prior value, and the key survives), while a PUT
unconditionally overwrites every payload field with the payload's
values. -/
theorem C1_patch_frame_put_overwrite :
    (∀ (s : Store) (sid : String) (upd : UserUpdate) (u u₂ : User) (s₂ : Store),
      s.users.find? (fun v => v.student_id == sid) = some u →
      update_user_patch sid upd s = (.ok 200 u₂, s₂) →
      (∀ v, upd.name = some v → u₂.name = v) ∧ (upd.name = none → u₂.name = u.name) ∧
      (∀ v, upd.email = some v → u₂.email = v) ∧ (upd.email = none → u₂.email = u.email) ∧
      (∀ v, upd.age = some v → u₂.age = v) ∧ (upd.age = none → u₂.age = u.age) ∧
      (∀ v, upd.student_id = some v → u₂.student_id = v) ∧
      (upd.student_id = none → u₂.student_id = u.student_id) ∧ u₂.id = u.id) ∧
    (∀ (s : Store) (sid : String) (pay : UserCreate) (u u₂ : User) (s₂ : Store),
      s.users.find? (fun v => v.student_id == sid) = some u →
      update_user_put sid pay s = (.ok 200 u₂, s₂) →
      u₂.name = pay.name ∧ u₂.email = pay.email ∧ u₂.age = pay.age ∧
      u₂.student_id = pay.student_id ∧ u₂.id = u.id) ∧
    (∀ (s : Store) (pid : Nat) (upd : ProjectUpdate) (p p₂ : Project) (s₂ : Store),
      s.projects.find? (fun q => q.project_id == pid) = some p →
      patch_project pid upd s = (.ok 200 p₂, s₂) →
      (∀ v, upd.name = some v → p₂.name = v) ∧ (upd.name = none → p₂.name = p.name) ∧
      (∀ v, upd.description = some v → p₂.description = some v) ∧
      (upd.description = none → p₂.description = p.description) ∧
      (∀ v, upd.owner_id = some v → p₂.owner_id = v) ∧
      (upd.owner_id = none → p₂.owner_id = p.owner_id) ∧
      p₂.project_id = p.project_id) ∧
    (∀ (s : Store) (pid : Nat) (pay : ProjectCreate) (p p₂ : Project) (s₂ : Store),
      s.projects.find? (fun q => q.project_id == pid) = some p →
      update_project pid pay s = (.ok 200 p₂, s₂) →
      p₂.name = pay.name ∧ p₂.description = pay.description ∧
      p₂.owner_id = pay.owner_id ∧ p₂.project_id = p.project_id) := by
  refine ⟨?_, ?_, ?_, ?_⟩
  · intro s sid upd u u₂ s₂ hfind h
    unfold update_user_patch at h
    rw [hfind] at h
    dsimp only at h
    split at h
    · injection h with h1 h2
      injection h1 with h3 h4
      subst h4
      and_intros
      · intro v hv; simp [applyUserUpdates, hv]
      · intro hn; simp [applyUserUpdates, hn]
      · intro v hv; simp [applyUserUpdates, hv]
      · intro hn; simp [applyUserUpdates, hn]
      · intro v hv; simp [applyUserUpdates, hv]
      · intro hn; simp [applyUserUpdates, hn]
      · intro v hv; simp [applyUserUpdates, hv]
      · intro hn; simp [applyUserUpdates, hn]
      · simp [applyUserUpdates]
    · exact absurd h (by simp)
  · intro s sid pay u u₂ s₂ hfind h
    unfold update_user_put at h
    rw [hfind] at h
    dsimp only at h
    split at h
    · injection h with h1 h2
      injection h1 with h3 h4
      subst h4
      exact ⟨rfl, rfl, rfl, rfl, rfl⟩
    · exact absurd h (by simp)
  · intro s pid upd p p₂ s₂ hfind h
    unfold patch_project at h
    rw [hfind] at h
    dsimp only at h
    split at h
    · injection h with h1 h2
      injection h1 with h3 h4
      subst h4
      and_intros
      · intro v hv; simp [applyProjectUpdates, hv]
      · intro hn; simp [applyProjectUpdates, hn]
      · intro v hv; simp [applyProjectUpdates, hv]
      · intro hn; simp [applyProjectUpdates, hn]
      · intro v hv; simp [applyProjectUpdates, hv]
      · intro hn; simp [applyProjectUpdates, hn]
      · simp [applyProjectUpdates]
    · exact absurd h (by simp)
  · intro s pid pay p p₂ s₂ hfind h
    unfold update_project at h
    rw [hfind] at h
    dsimp only at h
    split at h
    · injection h with h1 h2
      injection h1 with h3 h4
      subst h4
      exact ⟨rfl, rfl, rfl, rfl⟩
    · exact absurd h (by simp)

/-- Witness for C1: patching `user1` with only a new name changes the
name and keeps the email. -/
theorem C1_witness :
    (⟨1, "B", "a@x.com", 20, "S1"⟩ : User).name = "B" ∧
    (⟨1, "B", "a@x.com", 20, "S1"⟩ : User).email = user1.email := by
  have h := C1_patch_frame_put_overwrite.1 storeU "S1" ⟨some "B", none, none, none⟩
    user1 ⟨1, "B", "a@x.com", 20, "S1"⟩ ⟨[⟨1, "B", "a@x.com", 20, "S1"⟩], [], []⟩
    (by decide) (by decide)
  exact ⟨h.1 "B" rfl, h.2.2.2.1 rfl⟩

/-- C10: a PATCH whose payload supplies no field at all succeeds with
200, returns the record unchanged, and leaves the store unchanged — an
empty PATCH is an identity operation, for users and for projects. -/
theorem C10_empty_patch_identity :
    (∀ (s : Store) (sid : String) (u : User),
      integrityOk s = true →
      s.users.find? (fun v => v.student_id == sid) = some u →
      update_user_patch sid ⟨none, none, none, none⟩ s = (.ok 200 u, s)) ∧
    (∀ (s : Store) (pid : Nat) (p : Project),
      integrityOk s = true →
      s.projects.find? (fun q => q.project_id == pid) = some p →
      patch_project pid ⟨none, none, none⟩ s = (.ok 200 p, s)) := by
  constructor
  · intro s sid u hwf hfind
    have hmem : u ∈ s.users := List.mem_of_find?_eq_some hfind
    have hnd : (s.users.map User.id).Nodup := ((integrityOk_iff s).mp hwf).1
    have ha : applyUserUpdates ⟨none, none, none, none⟩ u = u := by cases u; rfl
    unfold update_user_patch
    rw [hfind]
    dsimp only
    simp only [ha]
    rw [map_replace_self hnd hmem]
    have hs : Store.mk s.users s.projects s.courses = s := rfl
    rw [hs, hwf]
    simp
  · intro s pid p hwf hfind
    have hmem : p ∈ s.projects := List.mem_of_find?_eq_some hfind
    have hnd : (s.projects.map Project.project_id).Nodup :=
      ((integrityOk_iff s).mp hwf).2.2.2.1
    have ha : applyProjectUpdates ⟨none, none, none⟩ p = p := by cases p; rfl
    unfold patch_project
    rw [hfind]
    dsimp only
    simp only [ha]
    rw [map_replace_self_project hnd hmem]
    have hs : Store.mk s.users s.projects s.courses = s := rfl
    rw [hs, hwf]
    simp

/-- Witness for C10: the empty PATCH on `user1` returns it unchanged. -/
theorem C10_witness :
    update_user_patch "S1" ⟨none, none, none, none⟩ storeU = (.ok 200 user1, storeU) :=
  C10_empty_patch_identity.1 storeU "S1" user1 (by decide) (by decide)

/-- C2: whenever a mutating operation answers 409 for a commit-time
constraint violation, the transaction was rolled back first — the store
it leaves behind is exactly the store it started from — and the detail
is the operation's fixed human-readable message; and under a well-formed
store the one commit not wrapped in a try/except (delete_user's) can
never fail, so no constraint violation ever escapes the 409 mapping. -/
theorem C2_conflict_rollback :
    (∀ (p : UserCreate) (s : Store) (d : String) (s₂ : Store),
      add_user p s = (.error 409 d, s₂) → s₂ = s ∧ d = "User already exists") ∧
    (∀ (sid : String) (p : UserCreate) (s : Store) (d : String) (s₂ : Store),
      update_user_put sid p s = (.error 409 d, s₂) →
        s₂ = s ∧ d = "User already exists") ∧
    (∀ (sid : String) (p : UserUpdate) (s : Store) (d : String) (s₂ : Store),
      update_user_patch sid p s = (.error 409 d, s₂) →
        s₂ = s ∧ d = "User already exists") ∧
    (∀ (c : CourseCreate) (s : Store) (d : String) (s₂ : Store),
      create_course c s = (.error 409 d, s₂) → s₂ = s ∧ d = "Course already exists") ∧
    (∀ (p : ProjectCreate) (f : CommitFault) (s : Store) (d : String) (s₂ : Store),
      create_project p f s = (.error 409 d, s₂) →
        s₂ = s ∧ d = "Project creation failed") ∧
    (∀ (pid : Nat) (p : ProjectCreate) (s : Store) (d : String) (s₂ : Store),
      update_project pid p s = (.error 409 d, s₂) →
        s₂ = s ∧ d = "Project already exists or owner invalid") ∧
    (∀ (pid : Nat) (p : ProjectUpdate) (s : Store) (d : String) (s₂ : Store),
      patch_project pid p s = (.error 409 d, s₂) →
        s₂ = s ∧ d = "Project already exists or owner invalid") ∧
    (∀ (uid : Nat) (p : ProjectCreateForUser) (s : Store) (d : String) (s₂ : Store),
      create_user_project uid p s = (.error 409 d, s₂) →
        s₂ = s ∧ d = "Project creation failed") ∧
    (∀ (uid : Nat) (s : Store), integrityOk s = true →
      ∀ (d : String) (s₂ : Store), delete_user uid s ≠ (.error 500 d, s₂)) := by
  refine ⟨?_, ?_, ?_, ?_, ?_, ?_, ?_, ?_, ?_⟩
  · intro p s d s₂ h
    unfold add_user at h
    dsimp only at h
    split at h
    · exact absurd h (by simp)
    · injection h with h1 h2
      injection h1 with hst hdet
      exact ⟨h2.symm, hdet.symm⟩
  · intro sid p s d s₂ h
    unfold update_user_put at h
    split at h
    · exact absurd h (by simp)
    · dsimp only at h
      split at h
      · exact absurd h (by simp)
      · injection h with h1 h2
        injection h1 with hst hdet
        exact ⟨h2.symm, hdet.symm⟩
  · intro sid p s d s₂ h
    unfold update_user_patch at h
    split at h
    · exact absurd h (by simp)
    · dsimp only at h
      split at h
      · exact absurd h (by simp)
      · injection h with h1 h2
        injection h1 with hst hdet
        exact ⟨h2.symm, hdet.symm⟩
  · intro c s d s₂ h
    unfold create_course at h
    dsimp only at h
    split at h
    · exact absurd h (by simp)
    · injection h with h1 h2
      injection h1 with hst hdet
      exact ⟨h2.symm, hdet.symm⟩
  · intro p f s d s₂ h
    unfold create_project at h
    split at h
    · dsimp only at h
      split at h
      · exact absurd h (by simp)
      · split at h
        · exact absurd h (by simp)
        · injection h with h1 h2
          injection h1 with hst hdet
          exact ⟨h2.symm, hdet.symm⟩
    · exact absurd h (by simp)
  · intro pid p s d s₂ h
    unfold update_project at h
    split at h
    · exact absurd h (by simp)
    · dsimp only at h
      split at h
      · exact absurd h (by simp)
      · injection h with h1 h2
        injection h1 with hst hdet
        exact ⟨h2.symm, hdet.symm⟩
  · intro pid p s d s₂ h
    unfold patch_project at h
    split at h
    · exact absurd h (by simp)
    · dsimp only at h
      split at h
      · exact absurd h (by simp)
      · injection h with h1 h2
        injection h1 with hst hdet
        exact ⟨h2.symm, hdet.symm⟩
  · intro uid p s d s₂ h
    unfold create_user_project at h
    split at h
    · dsimp only at h
      split at h
      · exact absurd h (by simp)
      · injection h with h1 h2
        injection h1 with hst hdet
        exact ⟨h2.symm, hdet.symm⟩
    · exact absurd h (by simp)
  · intro uid s hwf d s₂ h
    unfold delete_user at h
    split at h
    · exact absurd h (by simp)
    · dsimp only at h
      rw [integrityOk_delete s uid hwf] at h
      simp at h

/-- Witness for C2: recreating `user1`'s email in `storeU` answers 409
and leaves `storeU` as it was; deleting user 1 from the well-formed
`storeU` never surfaces a commit failure. -/
theorem C2_witness :
    (add_user payloadA storeU).2 = storeU ∧
    delete_user 1 storeU ≠ (.error 500 "uncaught", store0) := by
  have h1 := C2_conflict_rollback.1 payloadA storeU "User already exists"
    (add_user payloadA storeU).2 (by decide)
  have h2 := C2_conflict_rollback.2.2.2.2.2.2.2.2 1 storeU (by decide) "uncaught" store0
  exact ⟨h1.1, h2⟩

/-- C3: creating a user whose email and student_id are distinct from all
stored users succeeds with 201 and the created record appended to the
store; any second creation sharing that email or student_id then answers
409 "User already exists" and leaves the store unchanged. -/
theorem C3_create_user_unique (s : Store) (p : UserCreate)
    (hwf : integrityOk s = true)
    (hem : ∀ u ∈ s.users, u.email ≠ p.email)
    (hsid : ∀ u ∈ s.users, u.student_id ≠ p.student_id) :
    ∃ u : User,
      add_user p s = (.ok 201 u, { s with users := s.users ++ [u] }) ∧
      u.name = p.name ∧ u.email = p.email ∧ u.age = p.age ∧
      u.student_id = p.student_id ∧
      ∀ p' : UserCreate, p'.email = p.email ∨ p'.student_id = p.student_id →
        add_user p' { s with users := s.users ++ [u] } =
          (.error 409 "User already exists", { s with users := s.users ++ [u] }) := by
  rcases (integrityOk_iff s).mp hwf with ⟨h1, h2, h3, h4, h5, h6, h7⟩
  refine ⟨⟨nextUserId s, p.name, p.email, p.age, p.student_id⟩, ?_, rfl, rfl, rfl, rfl, ?_⟩
  · have htrue : integrityOk
        (Store.mk (s.users ++ [⟨nextUserId s, p.name, p.email, p.age, p.student_id⟩])
          s.projects s.courses) = true := by
      refine (integrityOk_iff _).mpr ⟨?_, ?_, ?_, h4, ?_, h6, h7⟩
      · exact nodup_map_append_fresh User.id s.users _ h1
          (fun y hy => Nat.ne_of_lt (lt_nextId (List.mem_map_of_mem User.id hy)))
      · exact nodup_map_append_fresh User.email s.users _ h2 (fun y hy => hem y hy)
      · exact nodup_map_append_fresh User.student_id s.users _ h3 (fun y hy => hsid y hy)
      · intro proj hproj
        rcases h5 proj hproj with ⟨w, hw, hid⟩
        exact ⟨w, List.mem_append_left _ hw, hid⟩
    unfold add_user
    dsimp only
    rw [htrue]
    simp
  · intro p' hp'
    unfold add_user
    dsimp only
    split
    · rename_i hok
      exfalso
      rcases hp' with hp' | hp'
      · have hnodup := ((integrityOk_iff _).mp hok).2.1
        refine (not_nodup_map_append_dup User.email _ _
          ⟨nextUserId s, p.name, p.email, p.age, p.student_id⟩ ?_ ?_) hnodup
        · exact List.mem_append_right _ (List.mem_singleton.mpr rfl)
        · exact hp'.symm
      · have hnodup := ((integrityOk_iff _).mp hok).2.2.1
        refine (not_nodup_map_append_dup User.student_id _ _
          ⟨nextUserId s, p.name, p.email, p.age, p.student_id⟩ ?_ ?_) hnodup
        · exact List.mem_append_right _ (List.mem_singleton.mpr rfl)
        · exact hp'.symm
    · rfl

/-- Witness for C3: the spec §8 scenario — create user A in the empty
store, then create the same payload again and get 409 unchanged. -/
theorem C3_witness :
    add_user payloadA storeA = (.error 409 "User already exists", storeA) := by
  obtain ⟨u, h1, -, -, -, -, h2⟩ := C3_create_user_unique store0 payloadA (by decide)
    (by intro u hu; cases hu) (by intro u hu; cases hu)
  have hc : add_user payloadA store0 = (.ok 201 user1, storeA) := by decide
  rw [hc] at h1
  injection h1 with ha hb
  injection ha with hst hbody
  have hu : u = user1 := hbody.symm
  subst hu
  exact h2 payloadA (Or.inl rfl)

/-- C4: deleting a stored user id answers 204 and atomically removes the
user together with every project it owns (no project with that owner_id
remains, projects of other owners and all courses are untouched);
deleting an absent id answers 404 and changes nothing. -/
theorem C4_delete_user_cascade (s : Store) (uid : Nat) (hwf : integrityOk s = true) :
    ((∃ u ∈ s.users, u.id = uid) →
      delete_user uid s =
        (.ok 204 (), { s with users := s.users.filter fun u => !(u.id == uid),
                              projects := s.projects.filter fun p => !(p.owner_id == uid) }) ∧
      (∀ p ∈ (delete_user uid s).2.projects, p.owner_id ≠ uid) ∧
      (∀ u ∈ (delete_user uid s).2.users, u.id ≠ uid) ∧
      (∀ p ∈ s.projects, p.owner_id ≠ uid → p ∈ (delete_user uid s).2.projects) ∧
      (delete_user uid s).2.courses = s.courses) ∧
    ((∀ u ∈ s.users, u.id ≠ uid) →
      delete_user uid s = (.error 404 "User not found", s)) := by
  constructor
  · rintro ⟨u, hu, huid⟩
    have heq : delete_user uid s =
        (.ok 204 (), { s with users := s.users.filter fun u => !(u.id == uid),
                              projects := s.projects.filter fun p => !(p.owner_id == uid) }) := by
      cases hfind : s.users.find? fun v => v.id == uid with
      | none =>
        exact absurd (beq_iff_eq.mpr huid) (List.find?_eq_none.mp hfind u hu)
      | some w =>
        unfold delete_user
        rw [hfind]
        dsimp only
        rw [integrityOk_delete s uid hwf]
        simp
    refine ⟨heq, ?_, ?_, ?_, ?_⟩
    · intro p hp
      rw [heq] at hp
      rcases List.mem_filter.mp hp with ⟨-, hkeep⟩
      simpa using hkeep
    · intro v hv
      rw [heq] at hv
      rcases List.mem_filter.mp hv with ⟨-, hkeep⟩
      simpa using hkeep
    · intro p hp hne
      rw [heq]
      exact List.mem_filter.mpr ⟨hp, by simpa using hne⟩
    · rw [heq]
  · intro h
    have hfind : (s.users.find? fun v => v.id == uid) = none :=
      List.find?_eq_none.mpr fun v hv => by simpa using h v hv
    unfold delete_user
    rw [hfind]

/-- Witness for C4: deleting user 1 from the store holding `user1` and
its project empties the store. -/
theorem C4_witness : delete_user 1 storeUP = (.ok 204 (), store0) :=
  ((C4_delete_user_cascade storeUP 1 (by decide)).1 ⟨user1, by decide, rfl⟩).1

/-- C9: with a stored path user_id, Create Project for User persists a
project whose owner_id is the path user_id, whatever the payload says —
changing the payload's owner field does not change the outcome at all. -/
theorem C9_project_owner_from_path (s : Store) (uid : Nat) (pay : ProjectCreateForUser)
    (hwf : integrityOk s = true) (hu : ∃ u ∈ s.users, u.id = uid) :
    ∃ proj : Project,
      create_user_project uid pay s =
        (.ok 201 proj, { s with projects := s.projects ++ [proj] }) ∧
      proj.owner_id = uid ∧ proj.name = pay.name ∧ proj.description = pay.description ∧
      ∀ bogus : Option Nat,
        create_user_project uid { pay with owner_id := bogus } s =
          create_user_project uid pay s := by
  rcases (integrityOk_iff s).mp hwf with ⟨h1, h2, h3, h4, h5, h6, h7⟩
  rcases hu with ⟨u, humem, huid⟩
  have hany : (s.users.any fun v => v.id == uid) = true :=
    List.any_eq_true.mpr ⟨u, humem, beq_iff_eq.mpr huid⟩
  refine ⟨⟨nextProjectId s, pay.name, pay.description, uid⟩, ?_, rfl, rfl, rfl, ?_⟩
  · have htrue : integrityOk (Store.mk s.users
        (s.projects ++ [⟨nextProjectId s, pay.name, pay.description, uid⟩])
        s.courses) = true := by
      refine (integrityOk_iff _).mpr ⟨h1, h2, h3, ?_, ?_, h6, h7⟩
      · exact nodup_map_append_fresh Project.project_id s.projects _ h4
          (fun y hy => Nat.ne_of_lt (lt_nextId (List.mem_map_of_mem Project.project_id hy)))
      · intro q hq
        rcases List.mem_append.mp hq with hq | hq
        · exact h5 q hq
        · rcases List.mem_singleton.mp hq with rfl
          exact ⟨u, humem, huid⟩
    unfold create_user_project
    rw [hany]
    dsimp only
    rw [htrue]
    simp
  · intro bogus
    cases pay
    rfl

/-- Witness for C9: a payload naming owner 99 still yields a project
owned by path user 1. -/
theorem C9_witness :
    ((create_user_project 1 ⟨"P2", some "d", some 99⟩ storeU).2.projects.all
      fun p => p.owner_id == 1) = true := by
  obtain ⟨proj, heq, hown, -, -, -⟩ := C9_project_owner_from_path storeU 1
    ⟨"P2", some "d", some 99⟩ (by decide) ⟨user1, by decide, rfl⟩
  rw [heq]
  simp [storeU, hown]

/-- Counterexample to C7: the `except Exception` branch of
`create_project` does not answer with a generic message only — its 500
detail embeds the exception's own text, so two different failures give
two different bodies. -/
theorem C7_counterexample :
    (create_project ⟨"P", none, 1⟩ (CommitFault.other "boom") storeU).1 =
      .error 500 ("Unexpected: " ++ "boom") ∧
    (create_project ⟨"P", none, 1⟩ (CommitFault.other "boom") storeU).1 ≠
      (create_project ⟨"P", none, 1⟩ (CommitFault.other "bam") storeU).1 :=
  ⟨rfl, by decide⟩

/-- C7 as amended: an unexpected (non-constraint) commit failure in
`create_project` is rolled back and surfaced as a 500 whose detail is
the string "Unexpected: " followed by the exception's text — the
exception text is exposed to the caller. -/
theorem C7_amended_500_leaks_exception_text :
    ∀ (pay : ProjectCreate) (s : Store) (msg : String),
      (∃ u ∈ s.users, u.id = pay.owner_id) →
      create_project pay (CommitFault.other msg) s =
        (.error 500 ("Unexpected: " ++ msg), s) := by
  rintro pay s msg ⟨u, hu, hid⟩
  have hany : (s.users.any fun v => v.id == pay.owner_id) = true :=
    List.any_eq_true.mpr ⟨u, hu, beq_iff_eq.mpr hid⟩
  unfold create_project
  rw [hany]
  simp

/-- Witness for the amended C7. -/
theorem C7_witness :
    create_project ⟨"P", none, 1⟩ (CommitFault.other "boom") storeU =
      (.error 500 ("Unexpected: " ++ "boom"), storeU) :=
  C7_amended_500_leaks_exception_text ⟨"P", none, 1⟩ storeU "boom" ⟨user1, by decide, rfl⟩

end EntityStore
